import Mathlib

/-!
Shallow embedding of `src/channel.c` (and the linked-list helper it ships
with): a typed, bounded, multi-producer/multi-consumer channel with a
multi-way select.  Opaque `void*` payloads and wakeup-token pointers are
modelled as natural numbers (pointer identity becomes `Nat` equality).
Mutexes, condition variables and semaphores carry no sequential state; a
blocking operation that would suspend on a condition variable (or on the
select semaphore) with no other thread to wake it is modelled as `none`.
-/

namespace ChannelSpec

/-- Status codes of `enum chan_status` (`SUCCESS`, `WOULDBLOCK`,
`CLOSED_ERROR`, `DESTROY_ERROR`, `OTHER_ERROR`). -/
inductive chan_status where
  | SUCCESS
  | WOULDBLOCK
  | CLOSED_ERROR
  | DESTROY_ERROR
  | OTHER_ERROR
deriving DecidableEq, Repr

open chan_status

/-- Modelled from the spec: the bounded ring buffer is an external
collaborator (the spec's §4.4 consumed contract: `create(capacity)`,
`capacity()`, `size()`, `push(value)` appending at the tail with
precondition `size < capacity`, `pop()` removing the oldest value with
precondition `size > 0`).  Its implementation is not under `src/`; we model
it as a capacity bound plus a list holding the values oldest-first. -/
structure Buffer where
  capacity : Nat
  data : List Nat
deriving DecidableEq, Repr

/-- Modelled from the spec: `buffer_create(capacity)` yields an empty
buffer of the given capacity. -/
def buffer_create (size : Nat) : Buffer := ⟨size, []⟩

/-- Modelled from the spec: `buffer_capacity`. -/
def buffer_capacity (b : Buffer) : Nat := b.capacity

/-- Modelled from the spec: `buffer_current_size`. -/
def buffer_current_size (b : Buffer) : Nat := b.data.length

/-- Modelled from the spec: `buffer_add` pushes a value at the tail
(precondition `size < capacity`). -/
def buffer_add (data : Nat) (b : Buffer) : Buffer :=
  ⟨b.capacity, b.data ++ [data]⟩

/-- Modelled from the spec: `buffer_remove` pops the oldest value
(precondition `size > 0`; outside the precondition the returned value is
the junk default 0, never reached by the channel code). -/
def buffer_remove (b : Buffer) : Nat × Buffer :=
  (b.data.headD 0, ⟨b.capacity, b.data.tail⟩)

/-- `chan_t`: buffer, closed flag, and the two select-waiter registries
(`send_list`, `receive_list`), each a list of wakeup-token identities with
the most recent insertion at the head (the C `list_insert` prepends).  The
mutexes and condition variables carry no sequential state and are omitted. -/
structure Channel where
  buffer : Buffer
  closed : Bool
  send_list : List Nat
  receive_list : List Nat
deriving DecidableEq, Repr

/-- `list_find` of `linked_list.c`: first node whose data pointer equals
the argument, or null.  We return the index of that node. -/
def list_find (l : List Nat) (data : Nat) : Option Nat :=
  l.findIdx? (fun x => x = data)

/-- `list_insert` of `linked_list.c`: prepends a new head node. -/
def list_insert (l : List Nat) (data : Nat) : List Nat := data :: l

/-- `list_remove` applied to the node returned by `list_find`: removes the
first occurrence of the data pointer. -/
def list_remove_found (l : List Nat) (data : Nat) : List Nat := l.erase data

/-- `channel_create(size)`: the `malloc` outcome is the explicit `allocOk`
parameter; on failure the C code returns `NULL` (here `none`), otherwise a
channel with a fresh buffer of capacity `size`, both registries empty
(`list_create`), and `closed = false`. -/
def channel_create (size : Nat) (allocOk : Bool) : Option Channel :=
  if allocOk then
    some { buffer := buffer_create size
           closed := false
           send_list := []
           receive_list := [] }
  else
    none

/-- `channel_send(channel, data, blocking)` for a non-null channel.
Result `none` models the blocking call suspending forever on
`send_condition` (no other thread in the sequential model); otherwise
`some (status, channel')`.  The `pthread_mutex_lock` call is modelled as
always succeeding (see `channel_send_lock` for the variant exposing its
return code).  The posting of tokens via `list_foreach(_, sem_post)` does
not change the registry. -/
def channel_send (channel : Channel) (data : Nat) (blocking : Bool) :
    Option (chan_status × Channel) :=
  if channel.closed then
    some (CLOSED_ERROR, channel)
  else if buffer_capacity channel.buffer - buffer_current_size channel.buffer = 0 then
    if blocking then
      none
    else
      some (WOULDBLOCK, channel)
  else
    some (SUCCESS, { channel with buffer := buffer_add data channel.buffer })

/-- `channel_receive(channel, data, blocking)` for a non-null channel.
The middle component is what the call wrote through the `void** data`
out-slot: `none` when the slot is left unwritten. -/
def channel_receive (channel : Channel) (blocking : Bool) :
    Option (chan_status × Option Nat × Channel) :=
  if channel.closed then
    some (CLOSED_ERROR, none, channel)
  else if buffer_current_size channel.buffer = 0 then
    if blocking then
      none
    else
      some (WOULDBLOCK, none, channel)
  else
    some (SUCCESS, some (buffer_remove channel.buffer).1,
      { channel with buffer := (buffer_remove channel.buffer).2 })

/-- `channel_close(channel)` for a non-null channel: already closed yields
`CLOSED_ERROR` with no state change, else sets the flag (the condvar
broadcasts and registry `sem_post`s change no sequential state). -/
def channel_close (channel : Channel) : chan_status × Channel :=
  if channel.closed then
    (CLOSED_ERROR, channel)
  else
    (SUCCESS, { channel with closed := true })

/-- `channel_destroy(channel)`: `none` in is the null handle; `none` out
means the channel memory was freed. -/
def channel_destroy (channel : Option Channel) : chan_status × Option Channel :=
  match channel with
  | none => (OTHER_ERROR, none)
  | some c =>
      if c.closed = false then
        (DESTROY_ERROR, some c)
      else
        (SUCCESS, none)

/-- Variant of `channel_send` exposing the return code of the
`pthread_mutex_lock` call in the non-blocking branch (`src/channel.c`
lines 47-54): a nonzero return makes the function return `WOULDBLOCK`
before touching the channel. -/
def channel_send_lock (lockRet : Nat) (channel : Channel) (data : Nat)
    (blocking : Bool) : Option (chan_status × Channel) :=
  if blocking then
    channel_send channel data blocking
  else if lockRet ≠ 0 then
    some (WOULDBLOCK, channel)
  else
    channel_send channel data blocking

/-- Variant of `channel_receive` exposing the `pthread_mutex_lock` return
code in the non-blocking branch (`src/channel.c` lines 120-127). -/
def channel_receive_lock (lockRet : Nat) (channel : Channel)
    (blocking : Bool) : Option (chan_status × Option Nat × Channel) :=
  if blocking then
    channel_receive channel blocking
  else if lockRet ≠ 0 then
    some (WOULDBLOCK, none, channel)
  else
    channel_receive channel blocking

/-- Modelled from the spec: the thread library is an external collaborator;
a plain (blocking) `pthread_mutex_lock` on a valid mutex never fails, i.e.
returns 0. -/
def pthread_mutex_lock_valid : Nat := 0

/-- A `select_t` entry: a channel handle (an index into the channel store,
out-of-range playing the role of a dangling pointer), the direction flag
`is_send`, and the payload slot `data` (the value to send, or the
destination overwritten on a successful receive). -/
structure select_t where
  channel : Nat
  is_send : Bool
  data : Nat
deriving DecidableEq, Repr

/-- One registration step on one registry (`src/channel.c` lines 296-299
and 307-310): insert the token iff `list_find` does not already see it
(deduplication by pointer identity). -/
def registry_insert_unique (l : List Nat) (tok : Nat) : List Nat :=
  if list_find l tok = none then list_insert l tok else l

/-- One deregistration step on one registry (`src/channel.c` lines 336-341
and 349-354): `list_find` the token and `list_remove` the found node when
present. -/
def registry_remove_token (l : List Nat) (tok : Nat) : List Nat :=
  if list_find l tok = none then l else list_remove_found l tok

/-- Registration phase of `channel_select` (`src/channel.c` lines
289-314): for each entry in input order, apply `registry_insert_unique` to
the registry matching its direction on its channel. -/
def register_entries (tok : Nat) (channels : List Channel) :
    List select_t → List Channel
  | [] => channels
  | e :: rest =>
      match channels[e.channel]? with
      | none => register_entries tok channels rest
      | some c =>
          register_entries tok
            (channels.set e.channel
              (if e.is_send then
                { c with send_list := registry_insert_unique c.send_list tok }
              else
                { c with
                  receive_list := registry_insert_unique c.receive_list tok }))
            rest

/-- Deregistration loop of `channel_select` (`src/channel.c` lines
330-358): for each entry, apply `registry_remove_token` to the registry
matching its direction on its channel. -/
def deregister_entries (tok : Nat) (channels : List Channel) :
    List select_t → List Channel
  | [] => channels
  | e :: rest =>
      match channels[e.channel]? with
      | none => deregister_entries tok channels rest
      | some c =>
          deregister_entries tok
            (channels.set e.channel
              (if e.is_send then
                { c with send_list := registry_remove_token c.send_list tok }
              else
                { c with
                  receive_list := registry_remove_token c.receive_list tok }))
            rest

/-- One probe of the select loop: a non-blocking `channel_send` or
`channel_receive` on the entry's channel.  Returns the status, the updated
channel store, and the value written into the entry's payload slot (`none`
when the slot is untouched).  A dangling channel handle is the
`channel == NULL` path of the callee (`OTHER_ERROR`); the `none` branches
of the callees are unreachable since the call is non-blocking. -/
def probe_one (channels : List Channel) (e : select_t) :
    chan_status × List Channel × Option Nat :=
  match channels[e.channel]? with
  | none => (OTHER_ERROR, channels, none)
  | some c =>
      if e.is_send then
        match channel_send c e.data false with
        | some (s, c') => (s, channels.set e.channel c', none)
        | none => (OTHER_ERROR, channels, none)
      else
        match channel_receive c false with
        | some (s, v, c') => (s, channels.set e.channel c', v)
        | none => (OTHER_ERROR, channels, none)

/-- One pass of the probe loop over the remaining entries (`i` is the
index of the first of them): stops at the first entry whose probe is not
`WOULDBLOCK`, yielding `(status, selected_index, store, written slot)`;
`none` when every entry yields `WOULDBLOCK`. -/
def select_probe (channels : List Channel) :
    List select_t → Nat → Option (chan_status × Nat × List Channel × Option Nat)
  | [], _ => none
  | e :: rest, i =>
      match probe_one channels e with
      | (s, channels', v) =>
          if s = WOULDBLOCK then
            select_probe channels' rest (i + 1)
          else
            some (s, i, channels', v)

/-- `channel_select(channel_count, channel_list, selected_index)`.
`semOk` is the outcome of `sem_init` on the private token `tok` (fresh by
pointer identity).  Result `none` models the call blocking forever on
`sem_wait`: with no other thread in the sequential model, a pass in which
every probe is `WOULDBLOCK` repeats identically after the wait.  Otherwise
`some (status, selected_index written, final store, payload written)`. -/
def channel_select (semOk : Bool) (tok : Nat) (channels : List Channel)
    (channel_list : List select_t) :
    Option (chan_status × Option Nat × List Channel × Option Nat) :=
  if channel_list.length = 0 then
    some (OTHER_ERROR, none, channels, none)
  else if semOk = false then
    some (OTHER_ERROR, none, channels, none)
  else
    match select_probe (register_entries tok channels channel_list) channel_list 0 with
    | some (s, i, channels2, v) =>
        some (s, some i, deregister_entries tok channels2 channel_list, v)
    | none => none

/-! ### Basic helper lemmas -/

lemma getElem?_some_lt {α : Type} (l : List α) (i : Nat) (a : α)
    (h : l[i]? = some a) : i < l.length := by
  by_contra hn
  rw [List.getElem?_eq_none (by omega)] at h
  exact Option.noConfusion h

lemma set_of_getElem? {α : Type} (l : List α) (i : Nat) (a : α)
    (h : l[i]? = some a) : l.set i a = l := by
  apply List.ext_getElem?
  intro j
  by_cases hij : i = j
  · subst hij
    rw [List.getElem?_set_self (getElem?_some_lt l i a h), h]
  · rw [List.getElem?_set_ne hij]

lemma findIdx?_eq_none_iff (p : Nat → Bool) (l : List Nat) :
    l.findIdx? p = none ↔ ∀ x ∈ l, ¬ p x := by
  induction l with
  | nil => simp
  | cons a l ih =>
      simp [List.findIdx?]
      by_cases h : p a <;> simp [h, ih]

lemma list_find_none_iff (l : List Nat) (d : Nat) :
    list_find l d = none ↔ d ∉ l := by
  rw [list_find, findIdx?_eq_none_iff]
  simp only [decide_eq_true_eq]
  constructor
  · intro h hm
    exact h d hm rfl
  · intro h x hx he
    subst he
    exact h hx

lemma channel_send_fields (c : Channel) (v : Nat) (b : Bool) (s : chan_status)
    (c2 : Channel) (h : channel_send c v b = some (s, c2)) :
    c2.closed = c.closed ∧ c2.send_list = c.send_list ∧
      c2.receive_list = c.receive_list := by
  unfold channel_send at h
  split_ifs at h <;> simp_all <;> simp [← h.2]

lemma channel_receive_fields (c : Channel) (b : Bool) (s : chan_status)
    (o : Option Nat) (c2 : Channel)
    (h : channel_receive c b = some (s, o, c2)) :
    c2.closed = c.closed ∧ c2.send_list = c.send_list ∧
      c2.receive_list = c.receive_list := by
  unfold channel_receive at h
  split_ifs at h <;> simp_all <;> simp [← h.2.2]

lemma channel_send_wouldblock (c : Channel) (v : Nat) (b : Bool) (c2 : Channel)
    (h : channel_send c v b = some (chan_status.WOULDBLOCK, c2)) : c2 = c := by
  unfold channel_send at h
  split_ifs at h <;> simp_all

lemma channel_receive_wouldblock (c : Channel) (b : Bool) (o : Option Nat)
    (c2 : Channel)
    (h : channel_receive c b = some (chan_status.WOULDBLOCK, o, c2)) :
    c2 = c ∧ o = none := by
  unfold channel_receive at h
  split_ifs at h <;> simp_all

/-! ### Select-phase helper lemmas -/

/-- Number of occurrences of a token in the registry of channel `j` for
direction `d` (`true` = send registry). -/
def countAt (tok : Nat) (channels : List Channel) (j : Nat) (d : Bool) : Nat :=
  match channels[j]? with
  | none => 0
  | some c => if d then c.send_list.count tok else c.receive_list.count tok

lemma getElem?_set_obs {β : Type} (f : Channel → β) (channels : List Channel)
    (i j : Nat) (c c2 : Channel) (hc : channels[i]? = some c)
    (hf : f c2 = f c) :
    ((channels.set i c2)[j]?).map f = (channels[j]?).map f := by
  by_cases hj : i = j
  · subst hj
    rw [List.getElem?_set_self (getElem?_some_lt _ _ _ hc), hc]
    simp [hf]
  · rw [List.getElem?_set_ne hj]

lemma countAt_congr (tok : Nat) (a b : List Channel) (j : Nat) (d : Bool)
    (h : (a[j]?).map (fun c => (c.closed, c.send_list, c.receive_list)) =
      (b[j]?).map (fun c => (c.closed, c.send_list, c.receive_list))) :
    countAt tok a j d = countAt tok b j d := by
  unfold countAt
  cases ha : a[j]? with
  | none =>
      rw [ha] at h
      cases hb : b[j]? with
      | none => rfl
      | some cb => rw [hb] at h; exact Option.noConfusion h
  | some ca =>
      rw [ha] at h
      cases hb : b[j]? with
      | none => rw [hb] at h; exact Option.noConfusion h
      | some cb =>
          rw [hb] at h
          simp at h
          simp [h.2.1, h.2.2]

lemma countAt_set (tok : Nat) (channels : List Channel) (i j : Nat)
    (c c2 : Channel) (hc : channels[i]? = some c) (d : Bool) :
    countAt tok (channels.set i c2) j d =
      if i = j then
        (if d then c2.send_list.count tok else c2.receive_list.count tok)
      else countAt tok channels j d := by
  unfold countAt
  by_cases hj : i = j
  · subst hj
    rw [List.getElem?_set_self (getElem?_some_lt _ _ _ hc)]
    simp
  · rw [List.getElem?_set_ne hj]
    simp [hj]

lemma countAt_get (tok : Nat) (channels : List Channel) (j : Nat)
    (c : Channel) (hc : channels[j]? = some c) (d : Bool) :
    countAt tok channels j d =
      if d then c.send_list.count tok else c.receive_list.count tok := by
  unfold countAt
  rw [hc]

lemma channel_send_nb_ne_none (c : Channel) (v : Nat) :
    channel_send c v false ≠ none := by
  unfold channel_send
  split_ifs <;> simp_all

lemma channel_receive_nb_ne_none (c : Channel) :
    channel_receive c false ≠ none := by
  unfold channel_receive
  split_ifs <;> simp_all

lemma probe_one_null (channels : List Channel) (e : select_t)
    (hc : channels[e.channel]? = none) :
    probe_one channels e = (chan_status.OTHER_ERROR, channels, none) := by
  unfold probe_one
  rw [hc]

lemma probe_one_send_some (channels : List Channel) (e : select_t)
    (c : Channel) (s : chan_status) (c2 : Channel)
    (hc : channels[e.channel]? = some c) (hd : e.is_send = true)
    (hs : channel_send c e.data false = some (s, c2)) :
    probe_one channels e = (s, channels.set e.channel c2, none) := by
  simp [probe_one, hc, hd, hs]

lemma probe_one_recv_some (channels : List Channel) (e : select_t)
    (c : Channel) (s : chan_status) (o : Option Nat) (c2 : Channel)
    (hc : channels[e.channel]? = some c) (hd : e.is_send = false)
    (hs : channel_receive c false = some (s, o, c2)) :
    probe_one channels e = (s, channels.set e.channel c2, o) := by
  simp [probe_one, hc, hd, hs]

lemma probe_one_syncState (channels : List Channel) (e : select_t) (j : Nat) :
    ((probe_one channels e).2.1[j]?).map
        (fun c => (c.closed, c.send_list, c.receive_list)) =
      (channels[j]?).map (fun c => (c.closed, c.send_list, c.receive_list)) := by
  cases hc : channels[e.channel]? with
  | none => rw [probe_one_null channels e hc]
  | some c =>
      cases hd : e.is_send with
      | true =>
          rcases hs : channel_send c e.data false with _ | ⟨s, c2⟩
          · exact absurd hs (channel_send_nb_ne_none c e.data)
          · rw [probe_one_send_some channels e c s c2 hc hd hs]
            have hf := channel_send_fields c e.data false s c2 hs
            exact getElem?_set_obs _ channels e.channel j c c2 hc
              (by simp [hf.1, hf.2.1, hf.2.2])
      | false =>
          rcases hs : channel_receive c false with _ | ⟨s, o, c2⟩
          · exact absurd hs (channel_receive_nb_ne_none c)
          · rw [probe_one_recv_some channels e c s o c2 hc hd hs]
            have hf := channel_receive_fields c false s o c2 hs
            exact getElem?_set_obs _ channels e.channel j c c2 hc
              (by simp [hf.1, hf.2.1, hf.2.2])

lemma probe_one_wouldblock_store (channels : List Channel) (e : select_t)
    (h : (probe_one channels e).1 = chan_status.WOULDBLOCK) :
    (probe_one channels e).2.1 = channels := by
  cases hc : channels[e.channel]? with
  | none => rw [probe_one_null channels e hc]
  | some c =>
      cases hd : e.is_send with
      | true =>
          rcases hs : channel_send c e.data false with _ | ⟨s, c2⟩
          · exact absurd hs (channel_send_nb_ne_none c e.data)
          · rw [probe_one_send_some channels e c s c2 hc hd hs] at h ⊢
            simp at h
            subst h
            rw [channel_send_wouldblock c e.data false c2 hs]
            exact set_of_getElem? channels e.channel c hc
      | false =>
          rcases hs : channel_receive c false with _ | ⟨s, o, c2⟩
          · exact absurd hs (channel_receive_nb_ne_none c)
          · rw [probe_one_recv_some channels e c s o c2 hc hd hs] at h ⊢
            simp at h
            subst h
            rw [(channel_receive_wouldblock c false o c2 hs).1]
            exact set_of_getElem? channels e.channel c hc

lemma probe_one_closed_chan (channels : List Channel) (e : select_t)
    (c : Channel) (hc : channels[e.channel]? = some c)
    (hcl : c.closed = true) :
    probe_one channels e = (chan_status.CLOSED_ERROR, channels, none) := by
  cases hd : e.is_send with
  | true =>
      have hs : channel_send c e.data false = some (CLOSED_ERROR, c) := by
        simp [channel_send, hcl]
      rw [probe_one_send_some channels e c CLOSED_ERROR c hc hd hs,
        set_of_getElem? channels e.channel c hc]
  | false =>
      have hs : channel_receive c false = some (CLOSED_ERROR, none, c) := by
        simp [channel_receive, hcl]
      rw [probe_one_recv_some channels e c CLOSED_ERROR none c hc hd hs,
        set_of_getElem? channels e.channel c hc]

lemma select_probe_syncState : ∀ (es : List select_t) (channels : List Channel)
    (i0 : Nat) (s : chan_status) (i : Nat) (ch2 : List Channel)
    (v : Option Nat), select_probe channels es i0 = some (s, i, ch2, v) →
    ∀ j : Nat,
    (ch2[j]?).map (fun c => (c.closed, c.send_list, c.receive_list)) =
      (channels[j]?).map (fun c => (c.closed, c.send_list, c.receive_list)) := by
  intro es
  induction es with
  | nil => intro channels i0 s i ch2 v h; exact Option.noConfusion h
  | cons e rest ih =>
      intro channels i0 s i ch2 v h j
      rw [select_probe] at h
      rcases hp : probe_one channels e with ⟨s1, ch1, v1⟩
      rw [hp] at h
      dsimp only at h
      by_cases hwb : s1 = WOULDBLOCK
      · rw [if_pos hwb] at h
        have h1 := ih ch1 (i0 + 1) s i ch2 v h j
        rw [h1]
        have h2 := probe_one_syncState channels e j
        rw [hp] at h2
        exact h2
      · rw [if_neg hwb] at h
        simp only [Option.some.injEq, Prod.mk.injEq] at h
        obtain ⟨h1, h2, h3, h4⟩ := h
        subst h3
        have h5 := probe_one_syncState channels e j
        rw [hp] at h5
        exact h5

lemma closed_of_core_map (a b : List Channel) (j : Nat)
    (h : (a[j]?).map (fun c => (c.closed, c.buffer)) =
      (b[j]?).map (fun c => (c.closed, c.buffer))) :
    (a[j]?).map (fun c => c.closed) = (b[j]?).map (fun c => c.closed) := by
  cases ha : a[j]? with
  | none =>
      rw [ha] at h
      cases hb : b[j]? with
      | none => rfl
      | some cb => rw [hb] at h; exact Option.noConfusion h
  | some ca =>
      rw [ha] at h
      cases hb : b[j]? with
      | none => rw [hb] at h; exact Option.noConfusion h
      | some cb => rw [hb] at h; simp at h ⊢; exact h.1

lemma closed_of_sync_map (a b : List Channel) (j : Nat)
    (h : (a[j]?).map (fun c => (c.closed, c.send_list, c.receive_list)) =
      (b[j]?).map (fun c => (c.closed, c.send_list, c.receive_list))) :
    (a[j]?).map (fun c => c.closed) = (b[j]?).map (fun c => c.closed) := by
  cases ha : a[j]? with
  | none =>
      rw [ha] at h
      cases hb : b[j]? with
      | none => rfl
      | some cb => rw [hb] at h; exact Option.noConfusion h
  | some ca =>
      rw [ha] at h
      cases hb : b[j]? with
      | none => rw [hb] at h; exact Option.noConfusion h
      | some cb => rw [hb] at h; simp at h ⊢; exact h.1

lemma registry_insert_unique_count_le (l : List Nat) (tok : Nat)
    (h : l.count tok ≤ 1) : (registry_insert_unique l tok).count tok ≤ 1 := by
  unfold registry_insert_unique
  split_ifs with hfind
  · have hnotin : tok ∉ l := (list_find_none_iff l tok).mp hfind
    simp [list_insert, List.count_eq_zero.mpr hnotin]
  · exact h

lemma registry_remove_token_count_le (l : List Nat) (tok : Nat) :
    (registry_remove_token l tok).count tok ≤ l.count tok := by
  unfold registry_remove_token
  split_ifs with hfind
  · exact Nat.le_refl _
  · unfold list_remove_found
    have := List.count_erase_self tok l
    omega

lemma registry_remove_token_count_zero (l : List Nat) (tok : Nat)
    (h : l.count tok ≤ 1) : (registry_remove_token l tok).count tok = 0 := by
  unfold registry_remove_token
  split_ifs with hfind
  · simp [List.count_eq_zero.mpr ((list_find_none_iff l tok).mp hfind)]
  · unfold list_remove_found
    have := List.count_erase_self tok l
    omega

lemma if_true_bool {α : Sort _} (x y : α) :
    (if (true : Bool) = true then x else y) = x := rfl

lemma if_false_bool {α : Sort _} (x y : α) :
    (if (false : Bool) = true then x else y) = y := rfl

lemma register_cons_null (tok : Nat) (channels : List Channel) (e : select_t)
    (rest : List select_t) (hc : channels[e.channel]? = none) :
    register_entries tok channels (e :: rest) =
      register_entries tok channels rest := by
  simp [register_entries, hc]

lemma register_cons_send (tok : Nat) (channels : List Channel) (e : select_t)
    (rest : List select_t) (c : Channel) (hc : channels[e.channel]? = some c)
    (hd : e.is_send = true) :
    register_entries tok channels (e :: rest) =
      register_entries tok
        (channels.set e.channel
          { c with send_list := registry_insert_unique c.send_list tok })
        rest := by
  simp [register_entries, hc, hd]

lemma register_cons_recv (tok : Nat) (channels : List Channel) (e : select_t)
    (rest : List select_t) (c : Channel) (hc : channels[e.channel]? = some c)
    (hd : e.is_send = false) :
    register_entries tok channels (e :: rest) =
      register_entries tok
        (channels.set e.channel
          { c with receive_list := registry_insert_unique c.receive_list tok })
        rest := by
  simp [register_entries, hc, hd]

lemma deregister_cons_null (tok : Nat) (channels : List Channel)
    (e : select_t) (rest : List select_t) (hc : channels[e.channel]? = none) :
    deregister_entries tok channels (e :: rest) =
      deregister_entries tok channels rest := by
  simp [deregister_entries, hc]

lemma deregister_cons_send (tok : Nat) (channels : List Channel)
    (e : select_t) (rest : List select_t) (c : Channel)
    (hc : channels[e.channel]? = some c) (hd : e.is_send = true) :
    deregister_entries tok channels (e :: rest) =
      deregister_entries tok
        (channels.set e.channel
          { c with send_list := registry_remove_token c.send_list tok })
        rest := by
  simp [deregister_entries, hc, hd]

lemma deregister_cons_recv (tok : Nat) (channels : List Channel)
    (e : select_t) (rest : List select_t) (c : Channel)
    (hc : channels[e.channel]? = some c) (hd : e.is_send = false) :
    deregister_entries tok channels (e :: rest) =
      deregister_entries tok
        (channels.set e.channel
          { c with receive_list := registry_remove_token c.receive_list tok })
        rest := by
  simp [deregister_entries, hc, hd]

lemma register_coreState (tok : Nat) : ∀ (es : List select_t)
    (channels : List Channel) (j : Nat),
    ((register_entries tok channels es)[j]?).map (fun c => (c.closed, c.buffer)) =
      (channels[j]?).map (fun c => (c.closed, c.buffer)) := by
  intro es
  induction es with
  | nil => intro channels j; rfl
  | cons e rest ih =>
      intro channels j
      cases hc : channels[e.channel]? with
      | none =>
          rw [register_cons_null tok channels e rest hc]
          exact ih channels j
      | some c =>
          cases hd : e.is_send with
          | true =>
              rw [register_cons_send tok channels e rest c hc hd, ih _ j]
              exact getElem?_set_obs _ channels e.channel j c _ hc rfl
          | false =>
              rw [register_cons_recv tok channels e rest c hc hd, ih _ j]
              exact getElem?_set_obs _ channels e.channel j c _ hc rfl

lemma deregister_coreState (tok : Nat) : ∀ (es : List select_t)
    (channels : List Channel) (j : Nat),
    ((deregister_entries tok channels es)[j]?).map
        (fun c => (c.closed, c.buffer)) =
      (channels[j]?).map (fun c => (c.closed, c.buffer)) := by
  intro es
  induction es with
  | nil => intro channels j; rfl
  | cons e rest ih =>
      intro channels j
      cases hc : channels[e.channel]? with
      | none =>
          rw [deregister_cons_null tok channels e rest hc]
          exact ih channels j
      | some c =>
          cases hd : e.is_send with
          | true =>
              rw [deregister_cons_send tok channels e rest c hc hd, ih _ j]
              exact getElem?_set_obs _ channels e.channel j c _ hc rfl
          | false =>
              rw [deregister_cons_recv tok channels e rest c hc hd, ih _ j]
              exact getElem?_set_obs _ channels e.channel j c _ hc rfl

lemma register_countAt_le (tok : Nat) : ∀ (es : List select_t)
    (channels : List Channel),
    (∀ j2 d2, countAt tok channels j2 d2 ≤ 1) →
    ∀ j d, countAt tok (register_entries tok channels es) j d ≤ 1 := by
  intro es
  induction es with
  | nil => intro channels hinv j d; exact hinv j d
  | cons e rest ih =>
      intro channels hinv j d
      cases hc : channels[e.channel]? with
      | none =>
          rw [register_cons_null tok channels e rest hc]
          exact ih channels hinv j d
      | some c =>
          cases hd : e.is_send with
          | true =>
              rw [register_cons_send tok channels e rest c hc hd]
              apply ih
              intro j2 d2
              rw [countAt_set tok channels e.channel j2 c _ hc d2]
              by_cases hj : e.channel = j2
              · rw [if_pos hj]
                subst hj
                have hs := hinv e.channel d2
                rw [countAt_get tok channels e.channel c hc d2] at hs
                cases d2 with
                | true =>
                    rw [if_true_bool] at hs ⊢
                    exact registry_insert_unique_count_le c.send_list tok hs
                | false =>
                    rw [if_false_bool] at hs ⊢
                    exact hs
              · rw [if_neg hj]
                exact hinv j2 d2
          | false =>
              rw [register_cons_recv tok channels e rest c hc hd]
              apply ih
              intro j2 d2
              rw [countAt_set tok channels e.channel j2 c _ hc d2]
              by_cases hj : e.channel = j2
              · rw [if_pos hj]
                subst hj
                have hs := hinv e.channel d2
                rw [countAt_get tok channels e.channel c hc d2] at hs
                cases d2 with
                | true =>
                    rw [if_true_bool] at hs ⊢
                    exact hs
                | false =>
                    rw [if_false_bool] at hs ⊢
                    exact registry_insert_unique_count_le c.receive_list tok hs
              · rw [if_neg hj]
                exact hinv j2 d2

lemma register_countAt_untouched (tok : Nat) : ∀ (es : List select_t)
    (channels : List Channel) (j : Nat) (d : Bool),
    (∀ e ∈ es, ¬(e.channel = j ∧ e.is_send = d)) →
    countAt tok (register_entries tok channels es) j d =
      countAt tok channels j d := by
  intro es
  induction es with
  | nil => intro channels j d _; rfl
  | cons e rest ih =>
      intro channels j d hno
      have hno2 : ∀ e2 ∈ rest, ¬(e2.channel = j ∧ e2.is_send = d) :=
        fun e2 he2 => hno e2 (List.mem_cons_of_mem e he2)
      cases hc : channels[e.channel]? with
      | none =>
          rw [register_cons_null tok channels e rest hc]
          exact ih channels j d hno2
      | some c =>
          cases hd : e.is_send with
          | true =>
              rw [register_cons_send tok channels e rest c hc hd]
              rw [ih _ j d hno2]
              rw [countAt_set tok channels e.channel j c _ hc d]
              by_cases hj : e.channel = j
              · rw [if_pos hj]
                have hdd : d = false := by
                  cases hdt : d with
                  | true => exact absurd ⟨hj, hdt ▸ hd⟩ (hno e (List.mem_cons_self e rest))
                  | false => rfl
                subst hdd
                subst hj
                rw [countAt_get tok channels e.channel c hc false]
                rw [if_false_bool, if_false_bool]
              · rw [if_neg hj]
          | false =>
              rw [register_cons_recv tok channels e rest c hc hd]
              rw [ih _ j d hno2]
              rw [countAt_set tok channels e.channel j c _ hc d]
              by_cases hj : e.channel = j
              · rw [if_pos hj]
                have hdd : d = true := by
                  cases hdt : d with
                  | true => rfl
                  | false => exact absurd ⟨hj, hdt ▸ hd⟩ (hno e (List.mem_cons_self e rest))
                subst hdd
                subst hj
                rw [countAt_get tok channels e.channel c hc true]
                rw [if_true_bool, if_true_bool]
              · rw [if_neg hj]

lemma deregister_countAt_le (tok : Nat) : ∀ (es : List select_t)
    (channels : List Channel) (j : Nat) (d : Bool),
    countAt tok (deregister_entries tok channels es) j d ≤
      countAt tok channels j d := by
  intro es
  induction es with
  | nil => intro channels j d; exact Nat.le_refl _
  | cons e rest ih =>
      intro channels j d
      cases hc : channels[e.channel]? with
      | none =>
          rw [deregister_cons_null tok channels e rest hc]
          exact ih channels j d
      | some c =>
          cases hd : e.is_send with
          | true =>
              rw [deregister_cons_send tok channels e rest c hc hd]
              refine Nat.le_trans (ih _ j d) ?_
              rw [countAt_set tok channels e.channel j c _ hc d]
              by_cases hj : e.channel = j
              · rw [if_pos hj]
                subst hj
                rw [countAt_get tok channels e.channel c hc d]
                cases d with
                | true =>
                    rw [if_true_bool, if_true_bool]
                    exact registry_remove_token_count_le c.send_list tok
                | false =>
                    rw [if_false_bool, if_false_bool]
              · rw [if_neg hj]
          | false =>
              rw [deregister_cons_recv tok channels e rest c hc hd]
              refine Nat.le_trans (ih _ j d) ?_
              rw [countAt_set tok channels e.channel j c _ hc d]
              by_cases hj : e.channel = j
              · rw [if_pos hj]
                subst hj
                rw [countAt_get tok channels e.channel c hc d]
                cases d with
                | true =>
                    rw [if_true_bool, if_true_bool]
                | false =>
                    rw [if_false_bool, if_false_bool]
                    exact registry_remove_token_count_le c.receive_list tok
              · rw [if_neg hj]

lemma deregister_countAt_untouched (tok : Nat) : ∀ (es : List select_t)
    (channels : List Channel) (j : Nat) (d : Bool),
    (∀ e ∈ es, ¬(e.channel = j ∧ e.is_send = d)) →
    countAt tok (deregister_entries tok channels es) j d =
      countAt tok channels j d := by
  intro es
  induction es with
  | nil => intro channels j d _; rfl
  | cons e rest ih =>
      intro channels j d hno
      have hno2 : ∀ e2 ∈ rest, ¬(e2.channel = j ∧ e2.is_send = d) :=
        fun e2 he2 => hno e2 (List.mem_cons_of_mem e he2)
      cases hc : channels[e.channel]? with
      | none =>
          rw [deregister_cons_null tok channels e rest hc]
          exact ih channels j d hno2
      | some c =>
          cases hd : e.is_send with
          | true =>
              rw [deregister_cons_send tok channels e rest c hc hd]
              rw [ih _ j d hno2]
              rw [countAt_set tok channels e.channel j c _ hc d]
              by_cases hj : e.channel = j
              · rw [if_pos hj]
                have hdd : d = false := by
                  cases hdt : d with
                  | true => exact absurd ⟨hj, hdt ▸ hd⟩ (hno e (List.mem_cons_self e rest))
                  | false => rfl
                subst hdd
                subst hj
                rw [countAt_get tok channels e.channel c hc false]
                rw [if_false_bool, if_false_bool]
              · rw [if_neg hj]
          | false =>
              rw [deregister_cons_recv tok channels e rest c hc hd]
              rw [ih _ j d hno2]
              rw [countAt_set tok channels e.channel j c _ hc d]
              by_cases hj : e.channel = j
              · rw [if_pos hj]
                have hdd : d = true := by
                  cases hdt : d with
                  | true => rfl
                  | false => exact absurd ⟨hj, hdt ▸ hd⟩ (hno e (List.mem_cons_self e rest))
                subst hdd
                subst hj
                rw [countAt_get tok channels e.channel c hc true]
                rw [if_true_bool, if_true_bool]
              · rw [if_neg hj]

lemma deregister_countAt_zero (tok : Nat) : ∀ (es : List select_t)
    (channels : List Channel),
    (∀ j2 d2, countAt tok channels j2 d2 ≤ 1) →
    ∀ e ∈ es,
      countAt tok (deregister_entries tok channels es) e.channel e.is_send = 0 := by
  intro es
  induction es with
  | nil => intro channels _ e he; exact absurd he (List.not_mem_nil e)
  | cons e rest ih =>
      intro channels hinv e2 he2
      cases hc : channels[e.channel]? with
      | none =>
          rw [deregister_cons_null tok channels e rest hc]
          rcases List.mem_cons.mp he2 with heq | hmem
          · subst heq
            have h0 : countAt tok channels e2.channel e2.is_send = 0 := by
              unfold countAt
              rw [hc]
            have hle := deregister_countAt_le tok rest channels e2.channel e2.is_send
            omega
          · exact ih channels hinv e2 hmem
      | some c =>
          cases hd : e.is_send with
          | true =>
              rw [deregister_cons_send tok channels e rest c hc hd]
              have hinv2 : ∀ j2 d2, countAt tok
                  (channels.set e.channel
                    { c with send_list := registry_remove_token c.send_list tok })
                  j2 d2 ≤ 1 := by
                intro j2 d2
                rw [countAt_set tok channels e.channel j2 c _ hc d2]
                by_cases hj : e.channel = j2
                · rw [if_pos hj]
                  subst hj
                  have hs := hinv e.channel d2
                  rw [countAt_get tok channels e.channel c hc d2] at hs
                  cases d2 with
                  | true =>
                      rw [if_true_bool] at hs ⊢
                      exact Nat.le_trans (registry_remove_token_count_le c.send_list tok) hs
                  | false =>
                      rw [if_false_bool] at hs ⊢
                      exact hs
                · rw [if_neg hj]
                  exact hinv j2 d2
              rcases List.mem_cons.mp he2 with heq | hmem
              · subst heq
                have h0 : countAt tok
                    (channels.set e2.channel
                      { c with send_list := registry_remove_token c.send_list tok })
                    e2.channel e2.is_send = 0 := by
                  rw [countAt_set tok channels e2.channel e2.channel c _ hc e2.is_send]
                  rw [if_pos rfl, hd, if_true_bool]
                  have hs := hinv e2.channel true
                  rw [countAt_get tok channels e2.channel c hc true, if_true_bool] at hs
                  exact registry_remove_token_count_zero c.send_list tok hs
                have hle := deregister_countAt_le tok rest
                  (channels.set e2.channel
                    { c with send_list := registry_remove_token c.send_list tok })
                  e2.channel e2.is_send
                omega
              · exact ih _ hinv2 e2 hmem
          | false =>
              rw [deregister_cons_recv tok channels e rest c hc hd]
              have hinv2 : ∀ j2 d2, countAt tok
                  (channels.set e.channel
                    { c with receive_list := registry_remove_token c.receive_list tok })
                  j2 d2 ≤ 1 := by
                intro j2 d2
                rw [countAt_set tok channels e.channel j2 c _ hc d2]
                by_cases hj : e.channel = j2
                · rw [if_pos hj]
                  subst hj
                  have hs := hinv e.channel d2
                  rw [countAt_get tok channels e.channel c hc d2] at hs
                  cases d2 with
                  | true =>
                      rw [if_true_bool] at hs ⊢
                      exact hs
                  | false =>
                      rw [if_false_bool] at hs ⊢
                      exact Nat.le_trans (registry_remove_token_count_le c.receive_list tok) hs
                · rw [if_neg hj]
                  exact hinv j2 d2
              rcases List.mem_cons.mp he2 with heq | hmem
              · subst heq
                have h0 : countAt tok
                    (channels.set e2.channel
                      { c with receive_list := registry_remove_token c.receive_list tok })
                    e2.channel e2.is_send = 0 := by
                  rw [countAt_set tok channels e2.channel e2.channel c _ hc e2.is_send]
                  rw [if_pos rfl, hd, if_false_bool]
                  have hs := hinv e2.channel false
                  rw [countAt_get tok channels e2.channel c hc false, if_false_bool] at hs
                  exact registry_remove_token_count_zero c.receive_list tok hs
                have hle := deregister_countAt_le tok rest
                  (channels.set e2.channel
                    { c with receive_list := registry_remove_token c.receive_list tok })
                  e2.channel e2.is_send
                omega
              · exact ih _ hinv2 e2 hmem

lemma select_probe_countAt (tok : Nat) (es : List select_t)
    (channels : List Channel) (i0 : Nat) (s : chan_status) (i : Nat)
    (ch2 : List Channel) (v : Option Nat)
    (h : select_probe channels es i0 = some (s, i, ch2, v)) (j : Nat)
    (d : Bool) : countAt tok ch2 j d = countAt tok channels j d :=
  countAt_congr tok ch2 channels j d
    (select_probe_syncState es channels i0 s i ch2 v h j)

lemma select_probe_first : ∀ (es : List select_t) (channels : List Channel)
    (i0 i : Nat) (hi : i < es.length),
    (∀ j (hj : j < i),
      (probe_one channels (es.get ⟨j, Nat.lt_trans hj hi⟩)).1 =
        chan_status.WOULDBLOCK) →
    (probe_one channels (es.get ⟨i, hi⟩)).1 ≠ chan_status.WOULDBLOCK →
    select_probe channels es i0 =
      some ((probe_one channels (es.get ⟨i, hi⟩)).1, i0 + i,
        (probe_one channels (es.get ⟨i, hi⟩)).2.1,
        (probe_one channels (es.get ⟨i, hi⟩)).2.2) := by
  intro es
  induction es with
  | nil => intro channels i0 i hi; exact absurd hi (by simp)
  | cons e rest ih =>
      intro channels i0 i hi hb hs
      cases i with
      | zero =>
          rw [select_probe]
          rcases hp : probe_one channels e with ⟨s1, ch1, v1⟩
          dsimp only
          have hs0 : s1 ≠ WOULDBLOCK := by
            have h1 : (probe_one channels ((e :: rest).get ⟨0, hi⟩)).1 = s1 := by
              show (probe_one channels e).1 = s1
              rw [hp]
            rw [← h1]
            exact hs
          rw [if_neg hs0]
          have h2 : probe_one channels ((e :: rest).get ⟨0, hi⟩) =
              (s1, ch1, v1) := hp
          rw [h2]
          simp
      | succ n =>
          have hwb0 : (probe_one channels e).1 = WOULDBLOCK := by
            have h1 := hb 0 (Nat.succ_pos n)
            exact h1
          have hst := probe_one_wouldblock_store channels e hwb0
          rw [select_probe]
          rcases hp : probe_one channels e with ⟨s1, ch1, v1⟩
          dsimp only
          rw [hp] at hwb0 hst
          rw [if_pos hwb0]
          have hch : ch1 = channels := hst
          subst hch
          have hn : n < rest.length := Nat.lt_of_succ_lt_succ hi
          have hb2 : ∀ j (hj : j < n),
              (probe_one ch1 (rest.get ⟨j, Nat.lt_trans hj hn⟩)).1 =
                WOULDBLOCK := fun j hj => hb (j + 1) (Nat.succ_lt_succ hj)
          have hs2 : (probe_one ch1 (rest.get ⟨n, hn⟩)).1 ≠ WOULDBLOCK := hs
          rw [ih ch1 (i0 + 1) n hn hb2 hs2]
          have harith : i0 + 1 + n = i0 + (n + 1) := by omega
          rw [harith]
          rfl

lemma channel_select_closed_map (semOk : Bool) (tok : Nat)
    (channels : List Channel) (es : List select_t) (s : chan_status)
    (i2 : Option Nat) (ch2 : List Channel) (v2 : Option Nat)
    (h : channel_select semOk tok channels es = some (s, i2, ch2, v2))
    (j : Nat) :
    (ch2[j]?).map (fun c => c.closed) =
      (channels[j]?).map (fun c => c.closed) := by
  unfold channel_select at h
  by_cases h0 : es.length = 0
  · rw [if_pos h0] at h
    simp at h
    rw [← h.2.2.1]
  · rw [if_neg h0] at h
    by_cases hsem : semOk = false
    · rw [if_pos hsem] at h
      simp at h
      rw [← h.2.2.1]
    · rw [if_neg hsem] at h
      rcases hsp : select_probe (register_entries tok channels es) es 0 with
        _ | ⟨s3, i3, ch3, v3⟩
      · rw [hsp] at h
        exact Option.noConfusion h
      · rw [hsp] at h
        dsimp only at h
        simp at h
        obtain ⟨hs3, hi3, hch, hv3⟩ := h
        rw [← hch]
        have m1 := closed_of_core_map _ _ j (deregister_coreState tok es ch3 j)
        have m2 := closed_of_sync_map _ _ j
          (select_probe_syncState es (register_entries tok channels es) 0
            s3 i3 ch3 v3 hsp j)
        have m3 := closed_of_core_map _ _ j (register_coreState tok es channels j)
        rw [m1, m2, m3]

/-! ### Claim theorems: lifecycle and single operations -/

/-- C9: `channel_create(capacity)` returns a null handle on allocation
failure, and otherwise a channel whose buffer has the given capacity and
size 0, whose two registries are empty, and whose closed flag is false. -/
theorem channel_create_spec (size : Nat) :
    channel_create size false = none ∧
    channel_create size true =
      some { buffer := { capacity := size, data := [] }
             closed := false
             send_list := []
             receive_list := [] } ∧
    buffer_capacity (buffer_create size) = size ∧
    buffer_current_size (buffer_create size) = 0 := by
  refine ⟨rfl, ?_, rfl, rfl⟩
  simp [channel_create, buffer_create]

theorem channel_create_spec_witness :
    channel_create 3 false = none ∧
    channel_create 3 true = some ⟨⟨3, []⟩, false, [], []⟩ :=
  ⟨(channel_create_spec 3).1, (channel_create_spec 3).2.1⟩

/-- C2: on a channel whose closed flag is true, send and receive (in both
blocking and non-blocking mode) return `CLOSED_ERROR`, transfer no value,
leave the whole channel state (buffer included) unchanged, and leave the
receive out-slot unwritten. -/
theorem closed_channel_rejects (c : Channel) (v : Nat) (bS bR : Bool)
    (h : c.closed = true) :
    channel_send c v bS = some (chan_status.CLOSED_ERROR, c) ∧
    channel_receive c bR = some (chan_status.CLOSED_ERROR, none, c) := by
  simp [channel_send, channel_receive, h]

theorem closed_channel_rejects_witness :
    channel_send ⟨⟨2, [7]⟩, true, [], []⟩ 5 true =
      some (chan_status.CLOSED_ERROR, ⟨⟨2, [7]⟩, true, [], []⟩) ∧
    channel_receive ⟨⟨2, [7]⟩, true, [], []⟩ false =
      some (chan_status.CLOSED_ERROR, none, ⟨⟨2, [7]⟩, true, [], []⟩) :=
  closed_channel_rejects ⟨⟨2, [7]⟩, true, [], []⟩ 5 true false rfl

/-- C3: on an open channel, non-blocking send returns `WOULDBLOCK` and
leaves the buffer unchanged when the buffer is full (size equals
capacity), and otherwise appends the value at the buffer's tail and
returns `SUCCESS`. -/
theorem send_nonblocking_spec (c : Channel) (v : Nat)
    (hopen : c.closed = false) :
    (buffer_current_size c.buffer = buffer_capacity c.buffer →
      channel_send c v false = some (chan_status.WOULDBLOCK, c)) ∧
    (buffer_current_size c.buffer < buffer_capacity c.buffer →
      channel_send c v false =
        some (chan_status.SUCCESS,
          { c with buffer := ⟨c.buffer.capacity, c.buffer.data ++ [v]⟩ })) := by
  constructor
  · intro hfull
    simp only [buffer_current_size, buffer_capacity] at hfull
    simp [channel_send, hopen, buffer_capacity, buffer_current_size, hfull]
  · intro hroom
    simp only [buffer_current_size, buffer_capacity] at hroom
    have hne : c.buffer.capacity - c.buffer.data.length ≠ 0 := by omega
    simp [channel_send, hopen, buffer_capacity, buffer_current_size, hne,
      buffer_add]

theorem send_nonblocking_spec_witness :
    channel_send ⟨⟨1, [7]⟩, false, [], []⟩ 5 false =
      some (chan_status.WOULDBLOCK, ⟨⟨1, [7]⟩, false, [], []⟩) ∧
    channel_send ⟨⟨2, [7]⟩, false, [], []⟩ 5 false =
      some (chan_status.SUCCESS, ⟨⟨2, [7, 5]⟩, false, [], []⟩) :=
  ⟨(send_nonblocking_spec ⟨⟨1, [7]⟩, false, [], []⟩ 5 rfl).1 rfl,
   (send_nonblocking_spec ⟨⟨2, [7]⟩, false, [], []⟩ 5 rfl).2 (by decide)⟩

/-- C4: on an open channel, non-blocking receive returns `WOULDBLOCK` and
leaves the out-slot unwritten when the buffer is empty, and otherwise pops
the oldest buffered value, stores it in the out-slot, and returns
`SUCCESS`. -/
theorem receive_nonblocking_spec (c : Channel) (hopen : c.closed = false) :
    (c.buffer.data = [] →
      channel_receive c false = some (chan_status.WOULDBLOCK, none, c)) ∧
    (∀ v rest, c.buffer.data = v :: rest →
      channel_receive c false =
        some (chan_status.SUCCESS, some v,
          { c with buffer := ⟨c.buffer.capacity, rest⟩ })) := by
  constructor
  · intro hempty
    simp [channel_receive, hopen, buffer_current_size, hempty]
  · intro v rest hdata
    simp [channel_receive, hopen, buffer_current_size, hdata, buffer_remove]

theorem receive_nonblocking_spec_witness :
    channel_receive ⟨⟨2, []⟩, false, [], []⟩ false =
      some (chan_status.WOULDBLOCK, none, ⟨⟨2, []⟩, false, [], []⟩) ∧
    channel_receive ⟨⟨2, [7, 5]⟩, false, [], []⟩ false =
      some (chan_status.SUCCESS, some 7, ⟨⟨2, [5]⟩, false, [], []⟩) :=
  ⟨(receive_nonblocking_spec ⟨⟨2, []⟩, false, [], []⟩ rfl).1 rfl,
   (receive_nonblocking_spec ⟨⟨2, [7, 5]⟩, false, [], []⟩ rfl).2 7 [5] rfl⟩

/-- C8: `channel_destroy` on an open channel returns `DESTROY_ERROR` with
no state change; on a closed channel it frees everything and returns
`SUCCESS`; on a null handle it returns `OTHER_ERROR`. -/
theorem channel_destroy_spec (c : Channel) :
    channel_destroy none = (chan_status.OTHER_ERROR, none) ∧
    (c.closed = false →
      channel_destroy (some c) = (chan_status.DESTROY_ERROR, some c)) ∧
    (c.closed = true →
      channel_destroy (some c) = (chan_status.SUCCESS, none)) := by
  refine ⟨rfl, ?_, ?_⟩ <;> intro h <;> simp [channel_destroy, h]

theorem channel_destroy_spec_witness :
    channel_destroy (some ⟨⟨1, []⟩, false, [], []⟩) =
      (chan_status.DESTROY_ERROR, some ⟨⟨1, []⟩, false, [], []⟩) ∧
    channel_destroy (some ⟨⟨1, []⟩, true, [], []⟩) =
      (chan_status.SUCCESS, none) :=
  ⟨(channel_destroy_spec ⟨⟨1, []⟩, false, [], []⟩).2.1 rfl,
   (channel_destroy_spec ⟨⟨1, []⟩, true, [], []⟩).2.2 rfl⟩

/-- C10: with the `pthread_mutex_lock` return code made explicit, the
non-blocking branch that maps a failed lock acquisition to `WOULDBLOCK` is
dead for a valid mutex: a plain (blocking) lock on a valid mutex returns
0, and with return code 0 both operations coincide with the embedding that
always proceeds past lock acquisition. -/
theorem nonblocking_lock_branch_dead (c : Channel) (v : Nat) (b : Bool) :
    channel_send_lock pthread_mutex_lock_valid c v b = channel_send c v b ∧
    channel_receive_lock pthread_mutex_lock_valid c b =
      channel_receive c b := by
  constructor <;>
    simp [channel_send_lock, channel_receive_lock, pthread_mutex_lock_valid]

/-! ### Sequential send/receive sequences (single sender, single receiver) -/

/-- A sequence of `channel_send` calls by one sender, each required to
return `SUCCESS`. -/
def sendAll (c : Channel) : List Nat → Option Channel
  | [] => some c
  | v :: vs =>
      match channel_send c v false with
      | some (SUCCESS, c2) => sendAll c2 vs
      | _ => none

/-- A sequence of `n` `channel_receive` calls by one receiver, each
required to return `SUCCESS`, collecting the received values in order. -/
def recvAll (c : Channel) : Nat → Option (List Nat × Channel)
  | 0 => some ([], c)
  | Nat.succ n =>
      match channel_receive c false with
      | some (SUCCESS, some v, c2) =>
          match recvAll c2 n with
          | some (vs, c3) => some (v :: vs, c3)
          | none => none
      | _ => none

lemma sendAll_spec : ∀ (vs : List Nat) (c : Channel), c.closed = false →
    c.buffer.data.length + vs.length ≤ c.buffer.capacity →
    sendAll c vs =
      some { c with buffer := ⟨c.buffer.capacity, c.buffer.data ++ vs⟩ } := by
  intro vs
  induction vs with
  | nil =>
      intro c hopen _
      simp [sendAll]
  | cons v vs ih =>
      intro c hopen hle
      have hle2 : c.buffer.data.length + vs.length + 1 ≤ c.buffer.capacity := by
        simp at hle
        omega
      have hne : c.buffer.capacity - c.buffer.data.length ≠ 0 := by omega
      have hsend : channel_send c v false =
          some (SUCCESS, { c with buffer := ⟨c.buffer.capacity, c.buffer.data ++ [v]⟩ }) := by
        simp [channel_send, hopen, buffer_capacity, buffer_current_size, hne,
          buffer_add]
      rw [sendAll, hsend]
      have hih := ih { c with buffer := ⟨c.buffer.capacity, c.buffer.data ++ [v]⟩ }
        hopen (by simp; omega)
      simp [hih]

lemma recvAll_spec : ∀ (n : Nat) (c : Channel), c.closed = false →
    n ≤ c.buffer.data.length →
    recvAll c n =
      some (c.buffer.data.take n,
        { c with buffer := ⟨c.buffer.capacity, c.buffer.data.drop n⟩ }) := by
  intro n
  induction n with
  | zero =>
      intro c hopen _
      simp [recvAll]
  | succ n ih =>
      intro c hopen hle
      match hdata : c.buffer.data with
      | [] => simp [hdata] at hle
      | v :: rest =>
          have hrecv : channel_receive c false =
              some (SUCCESS, some v, { c with buffer := ⟨c.buffer.capacity, rest⟩ }) := by
            simp [channel_receive, hopen, buffer_current_size, hdata,
              buffer_remove]
          rw [recvAll, hrecv]
          have hih := ih { c with buffer := ⟨c.buffer.capacity, rest⟩ } hopen
            (by simp; rw [hdata] at hle; simp at hle; omega)
          simp [hih, hdata]

/-- C5 counterexample: the channel with capacity 2 and residual buffer
`[7]` is open and non-full, but `channel_send 9` followed by
`channel_receive` yields the residual value 7, not the sent value 9: a
round trip on a non-full channel returns the oldest buffered value. -/
theorem roundtrip_counterexample :
    (Channel.mk ⟨2, [7]⟩ false [] []).closed = false ∧
    buffer_current_size (Channel.mk ⟨2, [7]⟩ false [] []).buffer <
      buffer_capacity (Channel.mk ⟨2, [7]⟩ false [] []).buffer ∧
    channel_send (Channel.mk ⟨2, [7]⟩ false [] []) 9 true =
      some (chan_status.SUCCESS, Channel.mk ⟨2, [7, 9]⟩ false [] []) ∧
    channel_receive (Channel.mk ⟨2, [7, 9]⟩ false [] []) true =
      some (chan_status.SUCCESS, some 7, Channel.mk ⟨2, [9]⟩ false [] []) ∧
    (7 : Nat) ≠ 9 := by
  decide

/-- C5 amended: on an open channel whose buffer is *empty* (and has room),
send(v) followed by receive yields v; and with a single sender and single
receiver operating sequentially on an initially empty open channel, the
sequence of received values equals the sequence of sent values (FIFO
order). -/
theorem fifo_roundtrip :
    (∀ c v, c.closed = false → c.buffer.data = [] →
       0 < c.buffer.capacity →
       channel_send c v false =
         some (chan_status.SUCCESS,
           { c with buffer := ⟨c.buffer.capacity, [v]⟩ }) ∧
       channel_receive { c with buffer := ⟨c.buffer.capacity, [v]⟩ } false =
         some (chan_status.SUCCESS, some v,
           { c with buffer := ⟨c.buffer.capacity, []⟩ })) ∧
    (∀ c vs, c.closed = false → c.buffer.data = [] →
       vs.length ≤ c.buffer.capacity →
       sendAll c vs = some { c with buffer := ⟨c.buffer.capacity, vs⟩ } ∧
       recvAll { c with buffer := ⟨c.buffer.capacity, vs⟩ } vs.length =
         some (vs, { c with buffer := ⟨c.buffer.capacity, []⟩ })) := by
  constructor
  · intro c v hopen hempty hcap
    have hne : c.buffer.capacity - c.buffer.data.length ≠ 0 := by
      rw [hempty]
      simp
      omega
    constructor
    · simp [channel_send, hopen, buffer_capacity, buffer_current_size,
        buffer_add, hempty]
      omega
    · simp [channel_receive, hopen, buffer_current_size, buffer_remove]
  · intro c vs hopen hempty hcap
    constructor
    · have h := sendAll_spec vs c hopen (by rw [hempty]; simpa)
      rw [h, hempty]
      simp
    · have h := recvAll_spec vs.length
        { c with buffer := ⟨c.buffer.capacity, vs⟩ } hopen (by simp)
      rw [h]
      simp

theorem fifo_roundtrip_witness :
    (channel_send ⟨⟨1, []⟩, false, [], []⟩ 4 false =
        some (chan_status.SUCCESS, ⟨⟨1, [4]⟩, false, [], []⟩) ∧
      channel_receive ⟨⟨1, [4]⟩, false, [], []⟩ false =
        some (chan_status.SUCCESS, some 4, ⟨⟨1, []⟩, false, [], []⟩)) ∧
    sendAll ⟨⟨2, []⟩, false, [], []⟩ [4, 5] =
      some ⟨⟨2, [4, 5]⟩, false, [], []⟩ ∧
    recvAll ⟨⟨2, [4, 5]⟩, false, [], []⟩ 2 =
      some ([4, 5], ⟨⟨2, []⟩, false, [], []⟩) :=
  ⟨fifo_roundtrip.1 ⟨⟨1, []⟩, false, [], []⟩ 4 rfl rfl (by decide),
   fifo_roundtrip.2 ⟨⟨2, []⟩, false, [], []⟩ [4, 5] rfl rfl (by decide)⟩

theorem nonblocking_lock_branch_dead_witness :
    channel_send_lock pthread_mutex_lock_valid ⟨⟨1, []⟩, false, [], []⟩ 4
        false =
      channel_send ⟨⟨1, []⟩, false, [], []⟩ 4 false ∧
    channel_receive_lock pthread_mutex_lock_valid ⟨⟨1, []⟩, false, [], []⟩
        false =
      channel_receive ⟨⟨1, []⟩, false, [], []⟩ false :=
  nonblocking_lock_branch_dead ⟨⟨1, []⟩, false, [], []⟩ 4 false

/-- C1: `channel_select` probes the entries in input order with
non-blocking operations; the first entry whose probe is not `WOULDBLOCK`
terminates the loop, `selected_index` is set to that entry's index, and
that status is returned verbatim.  In particular, when every entry targets
a closed channel, select returns `CLOSED_ERROR` with `selected_index`
equal to the index of the first (here: every, hence index 0) such entry. -/
theorem select_first_ready :
    (∀ (tok : Nat) (channels : List Channel) (es : List select_t) (i : Nat)
       (hi : i < es.length),
       (∀ j (hj : j < i),
         (probe_one (register_entries tok channels es)
           (es.get ⟨j, Nat.lt_trans hj hi⟩)).1 = chan_status.WOULDBLOCK) →
       (probe_one (register_entries tok channels es) (es.get ⟨i, hi⟩)).1 ≠
         chan_status.WOULDBLOCK →
       channel_select true tok channels es =
         some ((probe_one (register_entries tok channels es)
             (es.get ⟨i, hi⟩)).1,
           some i,
           deregister_entries tok
             (probe_one (register_entries tok channels es)
               (es.get ⟨i, hi⟩)).2.1 es,
           (probe_one (register_entries tok channels es)
             (es.get ⟨i, hi⟩)).2.2)) ∧
    (∀ (tok : Nat) (channels : List Channel) (es : List select_t),
       es ≠ [] →
       (∀ e ∈ es, ∃ c, channels[e.channel]? = some c ∧ c.closed = true) →
       channel_select true tok channels es =
         some (chan_status.CLOSED_ERROR, some 0,
           deregister_entries tok (register_entries tok channels es) es,
           none)) := by
  constructor
  · intro tok channels es i hi hb hs
    have hlen : ¬ es.length = 0 := by omega
    have hsp := select_probe_first es (register_entries tok channels es) 0 i
      hi hb hs
    rw [Nat.zero_add] at hsp
    simp [channel_select, hlen, hsp]
  · intro tok channels es hne hcl
    obtain ⟨e, rest, rfl⟩ : ∃ e rest, es = e :: rest := by
      cases es with
      | nil => exact absurd rfl hne
      | cons e rest => exact ⟨e, rest, rfl⟩
    obtain ⟨c, hc, hclosed⟩ := hcl e (List.mem_cons_self e rest)
    have hcore := register_coreState tok (e :: rest) channels e.channel
    rw [hc] at hcore
    rcases hmap : (register_entries tok channels (e :: rest))[e.channel]? with
      _ | c1
    · rw [hmap] at hcore
      exact Option.noConfusion hcore
    · rw [hmap] at hcore
      simp at hcore
      have hc1closed : c1.closed = true := by rw [hcore.1, hclosed]
      have hp := probe_one_closed_chan
        (register_entries tok channels (e :: rest)) e c1 hmap hc1closed
      have hsp : select_probe (register_entries tok channels (e :: rest))
          (e :: rest) 0 =
          some (chan_status.CLOSED_ERROR, 0,
            register_entries tok channels (e :: rest), none) := by
        rw [select_probe, hp]
        dsimp only
        rw [if_neg (by simp)]
      simp [channel_select, hsp]

theorem select_first_ready_witness :
    channel_select true 99 [⟨⟨1, [7]⟩, false, [], []⟩] [⟨0, false, 0⟩] =
      some (chan_status.SUCCESS, some 0, [⟨⟨1, []⟩, false, [], []⟩],
        some 7) ∧
    channel_select true 99 [⟨⟨1, []⟩, true, [], []⟩] [⟨0, true, 1⟩] =
      some (chan_status.CLOSED_ERROR, some 0, [⟨⟨1, []⟩, true, [], []⟩],
        none) :=
  ⟨select_first_ready.1 99 [⟨⟨1, [7]⟩, false, [], []⟩] [⟨0, false, 0⟩] 0
      (by decide) (fun j hj => absurd hj (Nat.not_lt_zero j)) (by decide),
   select_first_ready.2 99 [⟨⟨1, []⟩, true, [], []⟩] [⟨0, true, 1⟩]
      (by decide)
      (by
        intro e he
        rw [List.mem_singleton] at he
        subst he
        exact ⟨⟨⟨1, []⟩, true, [], []⟩, rfl, rfl⟩)⟩

/-- C6: the closed flag is monotonic: no operation (send, receive, close,
select) ever resets it from true to false; `channel_close` on an
already-closed channel returns `CLOSED_ERROR` with no state change, and on
an open channel sets the flag and returns `SUCCESS`. -/
theorem closed_flag_monotonic :
    (∀ c v b s c2, channel_send c v b = some (s, c2) → c.closed = true →
      c2.closed = true) ∧
    (∀ c b s o c2, channel_receive c b = some (s, o, c2) → c.closed = true →
      c2.closed = true) ∧
    (∀ c s c2, channel_close c = (s, c2) → c.closed = true →
      c2.closed = true) ∧
    (∀ (semOk : Bool) (tok : Nat) (channels : List Channel)
       (es : List select_t) (s : chan_status) (i2 : Option Nat)
       (ch2 : List Channel) (v2 : Option Nat),
      channel_select semOk tok channels es = some (s, i2, ch2, v2) →
      ∀ (j : Nat) (c c2 : Channel), channels[j]? = some c →
        ch2[j]? = some c2 → c.closed = true → c2.closed = true) ∧
    (∀ c, c.closed = true →
      channel_close c = (chan_status.CLOSED_ERROR, c)) ∧
    (∀ c, c.closed = false →
      channel_close c = (chan_status.SUCCESS, { c with closed := true })) := by
  refine ⟨?_, ?_, ?_, ?_, ?_, ?_⟩
  · intro c v b s c2 h hcl
    rw [(channel_send_fields c v b s c2 h).1, hcl]
  · intro c b s o c2 h hcl
    rw [(channel_receive_fields c b s o c2 h).1, hcl]
  · intro c s c2 h hcl
    rw [channel_close, if_pos hcl] at h
    injection h with h1 h2
    rw [← h2]
    exact hcl
  · intro semOk tok channels es s i2 ch2 v2 h j c c2 hgc hgc2 hcl
    have hm := channel_select_closed_map semOk tok channels es s i2 ch2 v2 h j
    rw [hgc, hgc2] at hm
    simp at hm
    rw [hm, hcl]
  · intro c hcl
    simp [channel_close, hcl]
  · intro c hcl
    simp [channel_close, hcl]

theorem closed_flag_monotonic_witness :
    channel_close ⟨⟨1, []⟩, false, [], []⟩ =
      (chan_status.SUCCESS, ⟨⟨1, []⟩, true, [], []⟩) ∧
    channel_close ⟨⟨1, []⟩, true, [], []⟩ =
      (chan_status.CLOSED_ERROR, ⟨⟨1, []⟩, true, [], []⟩) ∧
    (Channel.mk ⟨2, []⟩ true [] []).closed = true :=
  ⟨closed_flag_monotonic.2.2.2.2.2 ⟨⟨1, []⟩, false, [], []⟩ rfl,
   closed_flag_monotonic.2.2.2.2.1 ⟨⟨1, []⟩, true, [], []⟩ rfl,
   closed_flag_monotonic.1 ⟨⟨2, []⟩, true, [], []⟩ 5 true
     chan_status.CLOSED_ERROR ⟨⟨2, []⟩, true, [], []⟩ rfl rfl⟩

/-- C7: for a fresh private wakeup token, after registration the token
appears in each registry at most once (deduplicated by identity, even when
the same (channel, direction) pair occurs in multiple entries), and
whenever `channel_select` returns, the token is present in no registry of
the resulting store. -/
theorem select_token_unique_and_removed (tok : Nat)
    (channels : List Channel) (es : List select_t) (j : Nat) (d : Bool)
    (hfresh : ∀ j2 d2, countAt tok channels j2 d2 = 0) :
    countAt tok (register_entries tok channels es) j d ≤ 1 ∧
    (∀ (semOk : Bool) (s : chan_status) (i2 : Option Nat)
       (ch2 : List Channel) (v2 : Option Nat),
       channel_select semOk tok channels es = some (s, i2, ch2, v2) →
       countAt tok ch2 j d = 0) := by
  have hinv : ∀ j2 d2, countAt tok channels j2 d2 ≤ 1 := fun j2 d2 => by
    rw [hfresh j2 d2]
    omega
  constructor
  · exact register_countAt_le tok es channels hinv j d
  · intro semOk s i2 ch2 v2 h
    unfold channel_select at h
    by_cases h0 : es.length = 0
    · rw [if_pos h0] at h
      simp at h
      rw [← h.2.2.1]
      exact hfresh j d
    · rw [if_neg h0] at h
      by_cases hsem : semOk = false
      · rw [if_pos hsem] at h
        simp at h
        rw [← h.2.2.1]
        exact hfresh j d
      · rw [if_neg hsem] at h
        rcases hsp : select_probe (register_entries tok channels es) es 0 with
          _ | ⟨s3, i3, ch3, v3⟩
        · rw [hsp] at h
          exact Option.noConfusion h
        · rw [hsp] at h
          dsimp only at h
          simp at h
          obtain ⟨hs3, hi3, hch, hv3⟩ := h
          rw [← hch]
          have hch3_le : ∀ j2 d2, countAt tok ch3 j2 d2 ≤ 1 := fun j2 d2 => by
            rw [select_probe_countAt tok es _ 0 s3 i3 ch3 v3 hsp j2 d2]
            exact register_countAt_le tok es channels hinv j2 d2
          by_cases hmention : ∃ e ∈ es, e.channel = j ∧ e.is_send = d
          · obtain ⟨e, he, hpair⟩ := hmention
            have hz := deregister_countAt_zero tok es ch3 hch3_le e he
            rw [hpair.1, hpair.2] at hz
            exact hz
          · push_neg at hmention
            rw [deregister_countAt_untouched tok es ch3 j d
              (fun e he hp2 => hmention e he hp2.1 hp2.2)]
            rw [select_probe_countAt tok es _ 0 s3 i3 ch3 v3 hsp j d]
            rw [register_countAt_untouched tok es channels j d
              (fun e he hp2 => hmention e he hp2.1 hp2.2)]
            exact hfresh j d

theorem select_token_unique_and_removed_witness :
    countAt 99 (register_entries 99 [⟨⟨1, []⟩, true, [], []⟩]
      [⟨0, true, 5⟩]) 0 true ≤ 1 ∧
    countAt 99 [⟨⟨1, []⟩, true, [], []⟩] 0 true = 0 :=
  ⟨(select_token_unique_and_removed 99 [⟨⟨1, []⟩, true, [], []⟩]
      [⟨0, true, 5⟩] 0 true
      (by
        intro j2 d2
        cases j2 with
        | zero => cases d2 <;> rfl
        | succ n => cases d2 <;> rfl)).1,
   (select_token_unique_and_removed 99 [⟨⟨1, []⟩, true, [], []⟩]
      [⟨0, true, 5⟩] 0 true
      (by
        intro j2 d2
        cases j2 with
        | zero => cases d2 <;> rfl
        | succ n => cases d2 <;> rfl)).2 true chan_status.CLOSED_ERROR
      (some 0) [⟨⟨1, []⟩, true, [], []⟩] none rfl⟩

end ChannelSpec
